import Mathlib

/-!
Verification of the SOC alert-analysis pipeline.

A pandas `DataFrame` is modelled as an ordered list of named columns
`List (String × List α)`; a missing cell (`NaN`) is `Option.none`.
Pure functions of the repository (`canonicalize_columns`, `align_features`,
the threshold-labelling loop, `recommend_actions`, `ip_to_int`, `is_private`,
the top-K selection) are translated into executable Lean definitions;
the two threat-intel providers, whose behaviour depends on the network and on
the environment, are modelled as state-passing functions over an explicit
cache/call-counter state and a network oracle.
-/

set_option maxRecDepth 40000

namespace Soc

/-- A raw table cell: `none` models a missing value (`NaN`). -/
abbrev RawCell := Option String

/-- A raw (string-valued) data frame: ordered list of named columns. -/
abbrev RawTable := List (String × List RawCell)

/-- A feature-table cell: rational number or `none` (`NaN`). -/
abbrev Cell := Option ℚ

/-- A feature data frame: ordered list of named columns of numeric cells. -/
abbrev FTable := List (String × List Cell)

/-- `n in df.columns`. -/
def hasCol {α : Type} (t : List (String × List α)) (n : String) : Bool :=
  t.any (fun c => c.1 == n)

/-- `df[n]`: the first column named `n` (`[]` when absent). -/
def getCol {α : Type} (t : List (String × List α)) (n : String) : List α :=
  ((t.find? (fun c => c.1 == n)).map (fun c => c.2)).getD []

/-- `len(df)`: number of rows, read off the first column (pandas keeps all
columns the same length). -/
def nrows {α : Type} (t : List (String × List α)) : Nat :=
  match t with
  | [] => 0
  | c :: _ => c.2.length

/-- `df.columns` as a list of names. -/
def colNames {α : Type} (t : List (String × List α)) : List String :=
  t.map (fun c => c.1)

/-- `df.empty`: true when the frame has no columns or no rows. -/
def dfEmpty {α : Type} (t : List (String × List α)) : Bool :=
  t.isEmpty || nrows t == 0

/-! ## Schema canonicalizer (`src/utils/feature_engineering.py`) -/

/-- Whitespace characters removed by Python's `str.strip()` (ASCII part). -/
def pyIsSpace (c : Char) : Bool :=
  c = ' ' || c = '\t' || c = '\n' || c = '\r' || c = '\x0b' || c = '\x0c'

/-- Python `str.strip()` over a character list. -/
def pyStrip (l : List Char) : List Char :=
  ((l.dropWhile pyIsSpace).reverse.dropWhile pyIsSpace).reverse

/-- One character of `.lower().replace(" ", "_").replace("-", "_")`. -/
def normChar (c : Char) : Char :=
  if c.toLower = ' ' || c.toLower = '-' then '_' else c.toLower

/-- `str(c).strip().lower().replace(" ", "_").replace("-", "_")`:
the column-name normalisation of `canonicalize_columns`. -/
def normalize_name (s : String) : String :=
  ⟨(pyStrip s.data).map normChar⟩

/-- The `ALIASES` dict of `feature_engineering.py`, in insertion order. -/
def ALIASES : List (String × String) :=
  [("@timestamp", "timestamp"),
   ("time", "timestamp"),
   ("date", "timestamp"),
   ("datetime", "timestamp"),
   ("date_time", "timestamp"),
   ("event_time", "timestamp"),
   ("event_time_utc", "timestamp"),
   ("timestamp_utc", "timestamp"),
   ("timecreated", "timestamp"),
   ("eventreceivedtime", "timestamp"),
   ("event_received_time", "timestamp"),
   ("log_time", "timestamp"),
   ("logtime", "timestamp"),
   ("created", "timestamp"),
   ("recorded_time", "timestamp"),
   ("recordtime", "timestamp"),
   ("src", "source_ip"),
   ("src_ip", "source_ip"),
   ("sip", "source_ip"),
   ("source", "source_ip"),
   ("sourceaddress", "source_ip"),
   ("source_address", "source_ip"),
   ("dst", "destination_ip"),
   ("dst_ip", "destination_ip"),
   ("dip", "destination_ip"),
   ("destination", "destination_ip"),
   ("destinationaddress", "destination_ip"),
   ("destination_address", "destination_ip"),
   ("event", "event_type"),
   ("eventid", "event_type"),
   ("event_id", "event_type"),
   ("eventtype", "event_type"),
   ("eventname", "event_type"),
   ("event_name", "event_type"),
   ("eventcode", "event_type"),
   ("event_code", "event_type"),
   ("provider", "event_type"),
   ("task", "event_type"),
   ("opcode", "event_type"),
   ("user", "username"),
   ("user_name", "username"),
   ("useraccount", "username"),
   ("user_account", "username"),
   ("account", "username"),
   ("accountname", "username"),
   ("account_name", "username"),
   ("subjectusername", "username"),
   ("subject_user_name", "username"),
   ("logon_account", "username"),
   ("result", "status"),
   ("outcome", "status"),
   ("action", "status")]

/-- `df.rename(columns={al: tgt})`: every column named `al` becomes `tgt`,
values untouched, order preserved. -/
def renameCol (al tgt : String) (t : RawTable) : RawTable :=
  t.map (fun c => if c.1 == al then (tgt, c.2) else c)

/-- One iteration of the alias loop:
`if alias in new_df.columns and target not in new_df.columns: rename alias→target`. -/
def applyAliasStep (t : RawTable) (p : String × String) : RawTable :=
  if hasCol t p.1 && !(hasCol t p.2) then renameCol p.1 p.2 t
  else t

/-- The name-normalisation pass of `canonicalize_columns`
(`new_df.rename(columns=norm_map)`). -/
def normTable (df : RawTable) : RawTable :=
  df.map (fun c => (normalize_name c.1, c.2))

/-- `canonicalize_columns(df)`: identity on empty frames; otherwise normalise
every column name, then apply the alias map in dict order, renaming an alias
only when its canonical target is not already a column. -/
def canonicalize_columns (df : RawTable) : RawTable :=
  if dfEmpty df then df
  else ALIASES.foldl applyAliasStep (normTable df)

/-! ## Feature aligner (`align_features`) -/

/-- `fillna(0)` on one cell. -/
def fillZero (c : Cell) : Cell :=
  match c with
  | none => some 0
  | some v => some v

/-- One iteration of `for col in feature_names: if col not in X.columns:
X[col] = 0`; a scalar assignment broadcasts to the current number of rows. -/
def addMissingStep (t : FTable) (col : String) : FTable :=
  if hasCol t col then t else t ++ [(col, List.replicate (nrows t) (some 0))]

/-- The whole missing-column insertion loop of `align_features`. -/
def addMissingZeroCols (X : FTable) (feature_names : List String) : FTable :=
  feature_names.foldl addMissingStep X

/-- `X[feature_names]`: column selection, in the order given. -/
def selectCols (X : FTable) (feature_names : List String) : FTable :=
  feature_names.map (fun col => (col, getCol X col))

/-- `X.fillna(0)`. -/
def fillnaZero (X : FTable) : FTable :=
  X.map (fun c => (c.1, c.2.map fillZero))

/-- `align_features(X, feature_names)` from `feature_engineering.py`:
copy, insert missing expected columns as zeros, keep exactly the expected
columns in their order, replace remaining `NaN` by 0. -/
def align_features (X : FTable) (feature_names : List String) : FTable :=
  fillnaZero (selectCols (addMissingZeroCols X feature_names) feature_names)

/-! ## Risk threshold labelling (`src/app.py`, module-level loop) -/

/-- The threshold ladder of the labelling loop in `app.py`:
`risk >= 0.8 → "malicious"`, `risk >= 0.5 → "suspicious"`, else `"benign"`.
Scores are modelled as rationals. -/
def label_of_risk (risk : ℚ) : String :=
  if risk ≥ 0.8 then "malicious"
  else if risk ≥ 0.5 then "suspicious"
  else "benign"

/-- The whole labelling loop over a batch of risk scores. -/
def classify_batch (risk_scores : List ℚ) : List String :=
  risk_scores.map label_of_risk

/-! ## Recommendation engine (`src/utils/recommendations.py`) -/

/-- `recommend_actions(result_df)`: pure rule evaluation over the
`classification` column (passed here as the list of per-row labels). -/
def recommend_actions (classification : List String) : List String :=
  (if classification.any (fun l => l == "malicious") then
    ["Isolate affected hosts or user accounts immediately.",
     "Block malicious IPs/domains at firewall and proxy.",
     "Collect forensic artifacts (memory, disk, logs)."]
   else []) ++
  (if classification.any (fun l => l == "suspicious") then
    ["Increase monitoring and enable detailed logging for affected entities.",
     "Validate user actions with the business owner."]
   else []) ++
  (if classification.all (fun l => l == "benign") then
    ["No immediate action required; continue routine monitoring."]
   else []) ++
  ["Create/Update incident ticket and document findings.",
   "Review detection rules to reduce false positives."]

/-! ## Top-K selection (`src/app.py`:
`result_df["risk_score"].nlargest(min(max_enrich, len(result_df))).index`)

`Series.nlargest` with the default `keep="first"` returns the `n` largest
values in descending order, ties resolved in favour of the earlier original
position.  That output is exactly the result of sorting the position-indexed
series by the total order "larger value first, ties by smaller position
first" and taking the first `n` entries; since that order is antisymmetric
on position-indexed entries, any correct sort produces the same list. -/

/-- "Comes no later in `nlargest` order": larger score first, equal scores by
original position. -/
def riskOrder (a b : Nat × ℚ) : Prop :=
  b.2 < a.2 ∨ (a.2 = b.2 ∧ a.1 ≤ b.1)

instance : DecidableRel riskOrder := fun a b => by
  unfold riskOrder; infer_instance

/-- `Series.nlargest(n)` on a position-indexed series of risk scores,
returning (original position, score) pairs. -/
def nlargest_idx (n : Nat) (scores : List ℚ) : List (Nat × ℚ) :=
  (List.insertionSort riskOrder scores.enum).take n

/-- The top-K selection of the enrichment orchestrator:
`nlargest(min(max_enrich, len(result_df)))`. -/
def top_enrich_selection (max_enrich : Nat) (scores : List ℚ) : List (Nat × ℚ) :=
  nlargest_idx (min max_enrich scores.length) scores

/-! ## IP parsing (`ip_to_int` / `is_private`), modelling Python `ipaddress` -/

/-- Split a character list on a separator (Python `str.split(sep)`). -/
def splitOnChar (sep : Char) : List Char → List (List Char)
  | [] => [[]]
  | c :: rest =>
    let r := splitOnChar sep rest
    if c = sep then [] :: r
    else
      match r with
      | h :: t => (c :: h) :: t
      | [] => [[c]]

/-- Decimal digit value (`'0'` is code point 48). -/
def decDigitVal (c : Char) : Option Nat :=
  if c.isDigit then some (c.toNat - 48) else none

/-- Parse a (non-empty) all-decimal-digit string. -/
def digitsToNat (l : List Char) : Option Nat :=
  (l.mapM decDigitVal).map (fun ds => ds.foldl (fun a d => a * 10 + d) 0)

/-- `IPv4Address._parse_octet`: 1–3 decimal digits, no leading zero
(except the single digit "0"), value at most 255. -/
def parseOctet (p : List Char) : Option Nat :=
  if p.isEmpty then none
  else if !(p.all Char.isDigit) then none
  else if p.length > 3 then none
  else if p.length > 1 && p.getD 0 ' ' == '0' then none
  else
    match digitsToNat p with
    | some v => if v ≤ 255 then some v else none
    | none => none

/-- `IPv4Address._ip_int_from_string`: exactly four octets split on `.`. -/
def parse_ipv4 (s : String) : Option Nat :=
  let parts := splitOnChar '.' s.data
  if parts.length ≠ 4 then none
  else
    match parts.mapM parseOctet with
    | some vals => some (vals.foldl (fun a v => a * 256 + v) 0)
    | none => none

/-- Hexadecimal digit value, written over code points: digits are 48–57,
lowercase `a`–`f` are 97–102, uppercase `A`–`F` are 65–70. -/
def hexDigitVal (c : Char) : Option Nat :=
  let n := c.toNat
  if 48 ≤ n && n ≤ 57 then some (n - 48)
  else if 97 ≤ n && n ≤ 102 then some (n - 87)
  else if 65 ≤ n && n ≤ 70 then some (n - 55)
  else none

/-- `IPv6Address._parse_hextet`: 1–4 hex digits. -/
def parseHextet (p : List Char) : Option Nat :=
  if p.isEmpty then none
  else if p.length > 4 then none
  else (p.mapM hexDigitVal).map (fun ds => ds.foldl (fun a d => a * 16 + d) 0)

/-- `"%x" % n` (lowercase hex, no leading zeros, `"0"` for zero). -/
def natToHex (n : Nat) : List Char :=
  Nat.toDigits 16 n

/-- Combine parsed hextets into one integer (the accumulation loop of
`IPv6Address._ip_int_from_string`). -/
def hextetsFold (l : List Nat) : Nat :=
  l.foldl (fun a v => a * 65536 + v) 0

/-- `IPv6Address._ip_int_from_string` (after scope-id stripping):
split on `:`, expand a trailing embedded IPv4 address into two hextets,
locate the at-most-one `::` gap, and assemble the 128-bit integer. -/
def parse_ipv6_core (s : List Char) : Option Nat :=
  let parts0 := splitOnChar ':' s
  if parts0.length < 3 then none
  else
    let partsE : Option (List (List Char)) :=
      if (parts0.getLast?.getD []).contains '.' then
        match parse_ipv4 ⟨parts0.getLast?.getD []⟩ with
        | some v4 =>
          some (parts0.dropLast ++ [natToHex ((v4 >>> 16) % 65536), natToHex (v4 % 65536)])
        | none => none
      else some parts0
    match partsE with
    | none => none
    | some parts =>
      if parts.length > 9 then none
      else
        let interior := (parts.drop 1).dropLast
        if (interior.filter (fun p => p.isEmpty)).length > 1 then none
        else
          match (interior.findIdx? (fun p => p.isEmpty)).map (fun i => i + 1) with
          | some skipIdx =>
            let partsHi0 := skipIdx
            let partsLo0 := parts.length - skipIdx - 1
            let hiOpt : Option Nat :=
              if (parts.getD 0 []).isEmpty then
                (if partsHi0 - 1 ≠ 0 then none else some 0)
              else some partsHi0
            let loOpt : Option Nat :=
              if (parts.getLast?.getD []).isEmpty then
                (if partsLo0 - 1 ≠ 0 then none else some 0)
              else some partsLo0
            match hiOpt, loOpt with
            | some hi, some lo =>
              if 8 < hi + lo + 1 then none
              else
                let skipped := 8 - (hi + lo)
                match (parts.take hi).mapM parseHextet,
                      (parts.drop (parts.length - lo)).mapM parseHextet with
                | some his, some los =>
                  some ((hextetsFold his) * 2 ^ (16 * (skipped + lo)) + hextetsFold los)
                | _, _ => none
            | _, _ => none
          | none =>
            if parts.length ≠ 8 then none
            else if (parts.getD 0 []).isEmpty || (parts.getLast?.getD []).isEmpty then none
            else
              match parts.mapM parseHextet with
              | some vs => some (hextetsFold vs)
              | none => none

/-- `IPv6Address` parsing including the `%scope_id` suffix handling. -/
def parse_ipv6 (s : String) : Option Nat :=
  match splitOnChar '%' s.data with
  | [addr] => parse_ipv6_core addr
  | [addr, scope] => if scope.isEmpty then none else parse_ipv6_core addr
  | _ => none

/-- A parsed `ipaddress.ip_address` value. -/
inductive PyIPAddr where
  | v4 (a : Nat)
  | v6 (a : Nat)
deriving DecidableEq

/-- `ipaddress.ip_address(s)`: try IPv4, then IPv6; `none` models the
`ValueError` raised for malformed input. -/
def ip_address (s : String) : Option PyIPAddr :=
  match parse_ipv4 s with
  | some a => some (.v4 a)
  | none =>
    match parse_ipv6 s with
    | some a => some (.v6 a)
    | none => none

/-- `int(addr)`. -/
def addr_int : PyIPAddr → Nat
  | .v4 a => a
  | .v6 a => a

/-- `ip_to_int` from `feature_engineering.py`: integer form of the address,
0 when parsing raises. -/
def ip_to_int (ip : String) : Nat :=
  match ip_address ip with
  | some a => addr_int a
  | none => 0

/-- Membership of address `a` in the network `net/prefixLen` of an
address family of `width` bits. -/
def inNetwork (width a net prefixLen : Nat) : Bool :=
  a / 2 ^ (width - prefixLen) == net / 2 ^ (width - prefixLen)

/-- `ipaddress`'s IPv4 private networks, as (network address, prefix). -/
def IPV4_PRIVATE_NETWORKS : List (Nat × Nat) :=
  [(0x00000000, 8), (0x0A000000, 8), (0x7F000000, 8), (0xA9FE0000, 16),
   (0xAC100000, 12), (0xC0000000, 29), (0xC00000AA, 31), (0xC0000200, 24),
   (0xC0A80000, 16), (0xC6120000, 15), (0xC6336400, 24), (0xCB007100, 24),
   (0xF0000000, 4), (0xFFFFFFFF, 32)]

/-- `ipaddress`'s IPv6 private networks, as (network address, prefix). -/
def IPV6_PRIVATE_NETWORKS : List (Nat × Nat) :=
  [(1, 128), (0, 128), (0xFFFF * 2 ^ 32, 96), (0x100 * 2 ^ 112, 64),
   (0x2001 * 2 ^ 112, 23), (0x2001 * 2 ^ 112 + 0x0db8 * 2 ^ 96, 32),
   (0x2001 * 2 ^ 112 + 0x2 * 2 ^ 96, 48), (0x2001 * 2 ^ 112 + 0x10 * 2 ^ 96, 28),
   (0xfc00 * 2 ^ 112, 7), (0xfe80 * 2 ^ 112, 10)]

/-- `addr.is_private`. -/
def is_private_addr : PyIPAddr → Bool
  | .v4 a => IPV4_PRIVATE_NETWORKS.any (fun p => inNetwork 32 a p.1 p.2)
  | .v6 a => IPV6_PRIVATE_NETWORKS.any (fun p => inNetwork 128 a p.1 p.2)

/-- `is_private` from `feature_engineering.py`: 1 when the address parses and
is private, 0 on a parse failure or a public address. -/
def is_private (ip : String) : Nat :=
  match ip_address ip with
  | some a => if is_private_addr a then 1 else 0
  | none => 0

/-! ## IP feature derivation in `preprocess_dataframe` -/

/-- `_ensure_series(df, column, default_value)` from
`feature_engineering.py` (column values are always series here). -/
def _ensure_series (df : RawTable) (column : String) (default_value : RawCell) :
    List RawCell :=
  if hasCol df column then getCol df column
  else List.replicate (nrows df) default_value

/-- `_ensure_series(df, "source_ip", "").fillna("")`. -/
def src_ip_series (df : RawTable) : List String :=
  (_ensure_series df "source_ip" (some "")).map (fun c => c.getD "")

/-- `_ensure_series(df, "destination_ip", "").fillna("")`. -/
def dst_ip_series (df : RawTable) : List String :=
  (_ensure_series df "destination_ip" (some "")).map (fun c => c.getD "")

/-- The four IP feature columns assigned by `preprocess_dataframe`
(the section after canonicalisation that applies `ip_to_int` /
`is_private` to the two IP series). -/
structure IpFeatures where
  src_ip_int : List Nat
  dst_ip_int : List Nat
  src_is_private : List Nat
  dst_is_private : List Nat
deriving DecidableEq

/-- `df["src_ip_int"] = ...; df["dst_ip_int"] = ...;
df["src_is_private"] = ...; df["dst_is_private"] = ...`. -/
def ip_feature_columns (df : RawTable) : IpFeatures :=
  { src_ip_int := (src_ip_series df).map ip_to_int
    dst_ip_int := (dst_ip_series df).map ip_to_int
    src_is_private := (src_ip_series df).map is_private
    dst_is_private := (dst_ip_series df).map is_private }

/-! ## Threat-intel providers (`src/api/abuseipdb.py`, `src/api/virustotal.py`)

Each provider is a state-passing function over an explicit cache (the
module-level `_CACHE` dict) and a count of network calls issued so far.
The network is an oracle mapping the call number to an outcome, so repeated
calls may observe different network behaviour; `requests.get` raising is the
`exception` outcome, a parse failure inside `resp.json()` is an `Except.error`
body.  Both source files implement the identical control flow and differ only
in the fields extracted from a 200 response, so both are instances of
`provider_lookup` with their own success-entry builders. -/

/-- A JSON-ish dict value appearing in an enrichment entry. -/
inductive JVal where
  | str (v : String)
  | num (v : Int)
  | bool (v : Bool)
  | null
deriving DecidableEq

/-- An enrichment entry: the Python result dict. -/
abbrev Entry := List (String × JVal)

/-- `data.get(k)` for an optional numeric field (`None` renders as `null`). -/
def jnum (o : Option Int) : JVal :=
  match o with
  | some v => .num v
  | none => .null

/-- `data.get(k)` for an optional boolean field. -/
def jbool (o : Option Bool) : JVal :=
  match o with
  | some v => .bool v
  | none => .null

/-- Outcome of one `requests.get`: a response with a status code and a
JSON body (whose parsing may fail), or a raised transport exception. -/
inductive NetResult (δ : Type) where
  | response (status_code : Nat) (body : Except String δ)
  | exception (msg : String)

/-- Provider environment: optional API key (`os.getenv`; Python treats the
empty string as missing too) and the network oracle, indexed by how many
calls were issued before. -/
structure ProviderEnv (δ : Type) where
  apiKey : Option String
  net : Nat → NetResult δ

/-- Provider state: the module-level `_CACHE` and the number of network
calls issued so far in this process. -/
structure ProviderState where
  cache : List (String × Entry)
  calls : Nat
deriving DecidableEq

/-- The shared control flow of `enrich_ip_with_abuseipdb` and
`enrich_ip_with_virustotal`: falsy IP short-circuits, cache hit
short-circuits, missing key is cached as `no_key` without a network call,
otherwise one network call whose outcome (ok / `http_<code>` / `error`)
is cached. -/
def provider_lookup {δ : Type} (mkOk : δ → Entry) (env : ProviderEnv δ)
    (st : ProviderState) (ip : String) : Entry × ProviderState :=
  if ip = "" then ([("status", .str "no_ip")], st)
  else
    match st.cache.find? (fun c => c.1 == ip) with
    | some c => (c.2, st)
    | none =>
      if env.apiKey.getD "" = "" then
        let res : Entry := [("status", .str "no_key")]
        (res, { st with cache := st.cache ++ [(ip, res)] })
      else
        match env.net st.calls with
        | .exception m =>
          let res : Entry := [("status", .str "error"), ("error", .str m)]
          (res, ⟨st.cache ++ [(ip, res)], st.calls + 1⟩)
        | .response code body =>
          if code = 200 then
            match body with
            | .error m =>
              let res : Entry := [("status", .str "error"), ("error", .str m)]
              (res, ⟨st.cache ++ [(ip, res)], st.calls + 1⟩)
            | .ok d =>
              let res := mkOk d
              (res, ⟨st.cache ++ [(ip, res)], st.calls + 1⟩)
          else
            let res : Entry := [("status", .str ("http_" ++ toString code))]
            (res, ⟨st.cache ++ [(ip, res)], st.calls + 1⟩)

/-- The fields `enrich_ip_with_abuseipdb` reads from a 200 response
(`data.get(...)`; absent keys give `None`). -/
structure AbuseData where
  abuseConfidenceScore : Option Int
  totalReports : Option Int
  isWhitelisted : Option Bool

/-- The success entry built by `enrich_ip_with_abuseipdb`. -/
def abuse_ok_entry (d : AbuseData) : Entry :=
  [("status", .str "ok"),
   ("abuseConfidenceScore", jnum d.abuseConfidenceScore),
   ("totalReports", jnum d.totalReports),
   ("isWhitelisted", jbool d.isWhitelisted)]

/-- `enrich_ip_with_abuseipdb` (Provider A) as a state-passing function. -/
def enrich_ip_with_abuseipdb (env : ProviderEnv AbuseData) (st : ProviderState)
    (ip : String) : Entry × ProviderState :=
  provider_lookup abuse_ok_entry env st ip

/-- The fields `enrich_ip_with_virustotal` reads from
`data["data"]["attributes"]["last_analysis_stats"]`. -/
structure VTData where
  malicious : Option Int
  suspicious : Option Int
  harmless : Option Int

/-- The success entry built by `enrich_ip_with_virustotal`. -/
def vt_ok_entry (d : VTData) : Entry :=
  [("status", .str "ok"),
   ("malicious", jnum d.malicious),
   ("suspicious", jnum d.suspicious),
   ("harmless", jnum d.harmless)]

/-- `enrich_ip_with_virustotal` (Provider B) as a state-passing function. -/
def enrich_ip_with_virustotal (env : ProviderEnv VTData) (st : ProviderState)
    (ip : String) : Entry × ProviderState :=
  provider_lookup vt_ok_entry env st ip

/-! ## Reference-level model of `align_features` for the no-mutation claim

Python passes data frames by reference; `align_features` starts with
`X = X.copy()` and every subsequent in-place update (`X[col] = 0`) hits the
copy, while `X = X[feature_names]` and `X = X.fillna(0)` rebind the local
name to fresh frames.  The heap is modelled as a list of frames; the
function receives the index of its argument frame. -/

/-- The heap right after `X = X.copy()`: a fresh frame holding the argument's
value is appended at index `heap.length`. -/
def heap_after_copy (heap : List FTable) (x : Nat) : List FTable :=
  heap ++ [heap.getD x []]

/-- The heap after the in-place loop `for col in feature_names: ...
X[col] = 0`, which mutates only the copy at index `heap.length`. -/
def heap_after_inserts (heap : List FTable) (x : Nat) (feature_names : List String) :
    List FTable :=
  (heap_after_copy heap x).set heap.length
    (addMissingZeroCols (heap.getD x []) feature_names)

/-- `align_features` at the heap level: `X = X[feature_names]` and
`X = X.fillna(0)` allocate a fresh result frame, appended last.  Returns the
heap after the call and the index of the result frame; index `x` is the
caller's argument. -/
def align_features_heap (heap : List FTable) (x : Nat) (feature_names : List String) :
    List FTable × Nat :=
  (heap_after_inserts heap x feature_names ++
     [fillnaZero (selectCols ((heap_after_inserts heap x feature_names).getD heap.length [])
        feature_names)],
   (heap_after_inserts heap x feature_names).length)

/-! ## General lemmas -/

/-- A property preserved by every step of a left fold holds of the fold. -/
theorem foldl_invariant {α β : Type} (P : α → Prop) (f : α → β → α) (l : List β)
    (h : ∀ x b, b ∈ l → P x → P (f x b)) (x : α) (hx : P x) : P (l.foldl f x) := by
  induction l generalizing x with
  | nil => exact hx
  | cons b l ih =>
    exact ih (fun y c hc hy => h y c (List.mem_cons_of_mem b hc) hy)
      (f x b) (h x b (List.mem_cons_self b l) hx)

end Soc

namespace Soc

/-! ## C2: threshold labelling -/

/-- C2: for every risk score in `[0, 1]` the label is the deterministic
threshold ladder — `>= 0.8` gives `"malicious"`, `[0.5, 0.8)` gives
`"suspicious"`, `< 0.5` gives `"benign"` — and the boundaries are exact:
`0.8` is labelled `"malicious"` and `0.5` is labelled `"suspicious"`. -/
theorem C2_threshold_labels (r : ℚ) (h0 : 0 ≤ r) (h1 : r ≤ 1) :
    (r ≥ 0.8 → label_of_risk r = "malicious") ∧
    (0.5 ≤ r ∧ r < 0.8 → label_of_risk r = "suspicious") ∧
    (r < 0.5 → label_of_risk r = "benign") ∧
    label_of_risk 0.8 = "malicious" ∧ label_of_risk 0.5 = "suspicious" := by
  refine ⟨?_, ?_, ?_, ?_, ?_⟩
  · intro h; unfold label_of_risk; rw [if_pos h]
  · rintro ⟨h5, h8⟩
    unfold label_of_risk
    rw [if_neg (not_le.mpr h8), if_pos h5]
  · intro h
    unfold label_of_risk
    rw [if_neg (not_le.mpr (by linarith)), if_neg (not_le.mpr h)]
  · unfold label_of_risk; rw [if_pos le_rfl]
  · unfold label_of_risk; rw [if_neg (by norm_num), if_pos le_rfl]

/-- Witness for C2 at the concrete scores 1, `0.6` and 0. -/
theorem C2_threshold_labels_witness :
    label_of_risk 1 = "malicious" ∧ label_of_risk 0.6 = "suspicious" ∧
    label_of_risk 0 = "benign" :=
  ⟨(C2_threshold_labels 1 (by norm_num) (by norm_num)).1 (by norm_num),
   (C2_threshold_labels 0.6 (by norm_num) (by norm_num)).2.1 ⟨by norm_num, by norm_num⟩,
   (C2_threshold_labels 0 (by norm_num) (by norm_num)).2.2.1 (by norm_num)⟩

/-! ## C9: recommendations on an empty classified table -/

/-- C9: on a table with zero rows, `recommend_actions` returns exactly the
"no immediate action" string (the all-benign rule holds vacuously) followed
by the two closing actions, in that order. -/
theorem C9_recommend_actions_empty :
    recommend_actions [] =
      ["No immediate action required; continue routine monitoring.",
       "Create/Update incident ticket and document findings.",
       "Review detection rules to reduce false positives."] := by
  decide

/-! ## Column-access lemmas -/

theorem hasCol_cons {α : Type} (x : String × List α) (t : List (String × List α)) (n : String) :
    hasCol (x :: t) n = (x.1 == n || hasCol t n) := by
  simp [hasCol]

theorem getCol_cons {α : Type} (x : String × List α) (t : List (String × List α)) (n : String) :
    getCol (x :: t) n = if x.1 == n then x.2 else getCol t n := by
  by_cases h : x.1 == n
  · simp [getCol, List.find?_cons_of_pos _ h, h]
  · simp [getCol, List.find?_cons_of_neg _ h, h]

theorem find?_eq_none_of_hasCol {α : Type} {t : List (String × List α)} {n : String}
    (h : hasCol t n = false) : t.find? (fun c => c.1 == n) = none := by
  rw [List.find?_eq_none]
  intro x hx
  simp only [hasCol, List.any_eq_false] at h
  exact h x hx

theorem getCol_absent {α : Type} {t : List (String × List α)} {n : String}
    (h : hasCol t n = false) : getCol t n = [] := by
  simp [getCol, find?_eq_none_of_hasCol h]

theorem hasCol_append {α : Type} (t₁ t₂ : List (String × List α)) (n : String) :
    hasCol (t₁ ++ t₂) n = (hasCol t₁ n || hasCol t₂ n) := by
  simp [hasCol]

theorem getCol_append_left {α : Type} {t₁ : List (String × List α)}
    (t₂ : List (String × List α)) (n : String) (h : hasCol t₁ n = true) :
    getCol (t₁ ++ t₂) n = getCol t₁ n := by
  have hs : (t₁.find? (fun c => c.1 == n)).isSome := by
    rw [List.find?_isSome]
    simp only [hasCol, List.any_eq_true] at h
    exact h
  obtain ⟨c, hc⟩ := Option.isSome_iff_exists.mp hs
  simp [getCol, List.find?_append, hc]

theorem getCol_append_right {α : Type} {t₁ : List (String × List α)}
    (t₂ : List (String × List α)) (n : String) (h : hasCol t₁ n = false) :
    getCol (t₁ ++ t₂) n = getCol t₂ n := by
  simp [getCol, List.find?_append, find?_eq_none_of_hasCol h]

theorem getCol_map_keyed {α : Type} (F : List String) (g : String → List α) (n : String) :
    getCol (F.map (fun m => (m, g m))) n = if n ∈ F then g n else [] := by
  induction F with
  | nil => simp [getCol]
  | cons f F ih =>
    rw [List.map_cons, getCol_cons]
    by_cases h : f = n
    · subst h
      simp
    · simp only [List.mem_cons]
      have hbeq : (f == n) = false := by simp [h]
      rw [hbeq]
      simp only [Bool.false_eq_true, if_false, ih]
      by_cases hn : n ∈ F
      · rw [if_pos hn, if_pos (Or.inr hn)]
      · rw [if_neg hn, if_neg (by rintro (rfl | hmem) <;> [exact h rfl; exact hn hmem])]

theorem hasCol_map_keyed {α : Type} (F : List String) (g : String → List α) (n : String) :
    hasCol (F.map (fun m => (m, g m))) n = F.contains n := by
  induction F with
  | nil => rfl
  | cons f F ih =>
    rw [List.map_cons, hasCol_cons, ih, List.contains_cons]
    by_cases hfn : f = n
    · subst hfn; simp
    · rw [beq_eq_false_iff_ne.mpr hfn, beq_eq_false_iff_ne.mpr (Ne.symm hfn)]

/-! ## Lemmas on the missing-column loop of `align_features` -/

theorem addMissing_cons (X : FTable) (f : String) (F : List String) :
    addMissingZeroCols X (f :: F) = addMissingZeroCols (addMissingStep X f) F := rfl

theorem nrows_append_single {α : Type} (t : List (String × List α)) (p : String × List α)
    (hp : p.2.length = nrows t) : nrows (t ++ [p]) = nrows t := by
  cases t <;> simp_all [nrows]

theorem nrows_addMissingStep (X : FTable) (f : String) :
    nrows (addMissingStep X f) = nrows X := by
  unfold addMissingStep
  split
  · rfl
  · exact nrows_append_single X _ (by simp)

theorem nrows_addMissing (F : List String) (X : FTable) :
    nrows (addMissingZeroCols X F) = nrows X := by
  induction F generalizing X with
  | nil => rfl
  | cons f F ih => rw [addMissing_cons, ih, nrows_addMissingStep]

theorem getCol_addMissing_present (F : List String) (X : FTable) (n : String)
    (h : hasCol X n = true) :
    getCol (addMissingZeroCols X F) n = getCol X n ∧
    hasCol (addMissingZeroCols X F) n = true := by
  induction F generalizing X with
  | nil => exact ⟨rfl, h⟩
  | cons f F ih =>
    rw [addMissing_cons]
    unfold addMissingStep
    split
    · exact ih X h
    · have h₁ : hasCol (X ++ [(f, List.replicate (nrows X) (some 0))]) n = true := by
        rw [hasCol_append, h, Bool.true_or]
      have h₂ := ih _ h₁
      rw [h₂.1, getCol_append_left _ n h]
      exact ⟨rfl, h₂.2⟩

theorem getCol_addMissing_absent (F : List String) (X : FTable) (n : String)
    (h : hasCol X n = false) (hn : n ∈ F) :
    getCol (addMissingZeroCols X F) n = List.replicate (nrows X) (some 0) ∧
    hasCol (addMissingZeroCols X F) n = true := by
  induction F generalizing X with
  | nil => cases hn
  | cons f F ih =>
    rw [addMissing_cons]
    by_cases hf : f = n
    · subst hf
      unfold addMissingStep
      rw [if_neg (by rw [h]; exact Bool.false_ne_true)]
      have h₁ : hasCol (X ++ [(f, List.replicate (nrows X) (some 0))]) f = true := by
        rw [hasCol_append, h, Bool.false_or, hasCol_cons]
        simp
      have h₂ := getCol_addMissing_present F _ f h₁
      rw [h₂.1, getCol_append_right _ f h, getCol_cons, if_pos (by simp)]
      exact ⟨rfl, h₂.2⟩
    · have hn' : n ∈ F := by
        rcases List.mem_cons.mp hn with rfl | hmem
        · exact absurd rfl hf
        · exact hmem
      unfold addMissingStep
      split
      · exact ih X h hn'
      · have h₁ : hasCol (X ++ [(f, List.replicate (nrows X) (some 0))]) n = false := by
          rw [hasCol_append, h, Bool.false_or, hasCol_cons]
          simp [hf, hasCol]
        have h₂ := ih _ h₁ hn'
        rwa [nrows_append_single X _ (by simp)] at h₂

theorem addMissing_id (F : List String) (X : FTable)
    (h : ∀ n ∈ F, hasCol X n = true) :
    addMissingZeroCols X F = X := by
  induction F with
  | nil => rfl
  | cons f F ih =>
    rw [addMissing_cons]
    unfold addMissingStep
    rw [if_pos (h f (List.mem_cons_self f F))]
    exact ih fun n hn => h n (List.mem_cons_of_mem f hn)

/-! ## Lemmas on `align_features` -/

theorem align_eq_map (X : FTable) (F : List String) :
    align_features X F =
      F.map (fun n => (n, (getCol (addMissingZeroCols X F) n).map fillZero)) := by
  simp [align_features, fillnaZero, selectCols, List.map_map, Function.comp]

theorem fillZero_fillZero (c : Cell) : fillZero (fillZero c) = fillZero c := by
  cases c <;> rfl

theorem map_fillZero_idem (l : List Cell) :
    (l.map fillZero).map fillZero = l.map fillZero := by
  rw [List.map_map]
  exact List.map_congr_left fun c _ => fillZero_fillZero c

end Soc

namespace Soc

/-! ## C5 / C6: totality and idempotence of alignment -/

/-- C5: alignment is total — for every feature table `X` and expected-name
list `F`, `align_features X F` has exactly `F.length` columns, named `F` in
`F`'s order; a name absent from `X` becomes a zero column (of `X`'s row
count), and a column of `X` not named in `F` does not appear. -/
theorem C5_align_total (X : FTable) (F : List String) :
    (align_features X F).length = F.length ∧
    colNames (align_features X F) = F ∧
    (∀ n, n ∈ F → hasCol X n = false →
      getCol (align_features X F) n = List.replicate (nrows X) (some 0)) ∧
    (∀ n, n ∉ F → hasCol (align_features X F) n = false) := by
  refine ⟨?_, ?_, ?_, ?_⟩
  · rw [align_eq_map, List.length_map]
  · rw [align_eq_map]
    unfold colNames
    rw [List.map_map]
    exact List.map_id' F
  · intro n hn h
    rw [align_eq_map, getCol_map_keyed, if_pos hn,
      (getCol_addMissing_absent F X n h hn).1]
    simp [fillZero]
  · intro n hn
    rw [align_eq_map, hasCol_map_keyed]
    exact Bool.eq_false_iff.mpr fun hc => hn (List.mem_of_elem_eq_true hc)

/-- Witness for C5 on `X = [("a", [1, NaN])]`, `F = ["b", "a"]`:
the missing name `"b"` becomes a two-row zero column, and the name `"c"`
(not in `F`) is absent from the output. -/
theorem C5_align_total_witness :
    getCol (align_features [("a", [some 1, none])] ["b", "a"]) "b" =
      List.replicate 2 (some 0) ∧
    hasCol (align_features [("a", [some 1, none])] ["b", "a"]) "c" = false :=
  ⟨(C5_align_total [("a", [some 1, none])] ["b", "a"]).2.2.1 "b" (by decide) (by decide),
   (C5_align_total [("a", [some 1, none])] ["b", "a"]).2.2.2 "c" (by decide)⟩

/-- C6: alignment is idempotent —
`align_features (align_features X F) F = align_features X F`. -/
theorem C6_align_idempotent (X : FTable) (F : List String) :
    align_features (align_features X F) F = align_features X F := by
  have hall : ∀ n ∈ F, hasCol (align_features X F) n = true := by
    intro n hn
    rw [align_eq_map, hasCol_map_keyed]
    exact List.elem_eq_true_of_mem hn
  have hAdd := addMissing_id F (align_features X F) hall
  rw [align_eq_map (align_features X F) F, hAdd, align_eq_map X F]
  refine List.map_congr_left fun n hn => ?_
  rw [getCol_map_keyed, if_pos hn, map_fillZero_idem]

/-! ## C10: `align_features` does not mutate its argument -/

/-- C10: at the heap level, `align_features` leaves the caller's frame
untouched (it operates on the copy made by `X = X.copy()`), and the frame it
returns is exactly the pure `align_features` of the input frame. -/
theorem C10_align_no_mutation (heap : List FTable) (x : Nat) (F : List String)
    (hx : x < heap.length) :
    (align_features_heap heap x F).1.getD x [] = heap.getD x [] ∧
    (align_features_heap heap x F).1.getD (align_features_heap heap x F).2 []
      = align_features (heap.getD x []) F := by
  have hj : (heap_after_inserts heap x F).getD heap.length []
      = addMissingZeroCols (heap.getD x []) F := by
    unfold heap_after_inserts heap_after_copy
    rw [List.getD_eq_getElem?_getD,
      List.getElem?_set_self (by simp [List.length_append])]
    rfl
  have hlen : (heap_after_inserts heap x F).length = heap.length + 1 := by
    unfold heap_after_inserts heap_after_copy
    rw [List.length_set, List.length_append, List.length_singleton]
  constructor
  · unfold align_features_heap
    rw [List.getD_eq_getElem?_getD, List.getElem?_append,
      if_pos (by rw [hlen]; omega)]
    unfold heap_after_inserts heap_after_copy
    rw [List.getElem?_set_ne (by omega), List.getElem?_append, if_pos hx,
      ← List.getD_eq_getElem?_getD]
  · unfold align_features_heap
    rw [hj, List.getD_eq_getElem?_getD, List.getElem?_append,
      if_neg (lt_irrefl _), Nat.sub_self]
    rfl

/-- Witness for C10 on a one-frame heap. -/
theorem C10_align_no_mutation_witness :
    (align_features_heap [[("a", [some 1])]] 0 ["a"]).1.getD 0 []
        = [[("a", [some 1])]].getD 0 [] ∧
    (align_features_heap [[("a", [some 1])]] 0 ["a"]).1.getD
        (align_features_heap [[("a", [some 1])]] 0 ["a"]).2 []
      = align_features ([[("a", [some 1])]].getD 0 []) ["a"] :=
  C10_align_no_mutation [[("a", [some 1])]] 0 ["a"] (by decide)

/-! ## Provider lemmas -/

theorem cache_append_find (cache : List (String × Entry)) (ip : String) (res : Entry)
    (hf : cache.find? (fun c => c.1 == ip) = none) :
    (cache ++ [(ip, res)]).find? (fun c => c.1 == ip) = some (ip, res) := by
  rw [List.find?_append, hf, Option.none_or]
  exact List.find?_cons_of_pos _ (by simp)

/-- After any lookup of a non-empty IP, the cache holds exactly the entry the
lookup returned. -/
theorem provider_lookup_caches {δ : Type} (mkOk : δ → Entry) (env : ProviderEnv δ)
    (st : ProviderState) (ip : String) (h : ip ≠ "") :
    ((provider_lookup mkOk env st ip).2).cache.find? (fun c => c.1 == ip) =
      some (ip, (provider_lookup mkOk env st ip).1) := by
  unfold provider_lookup
  rw [if_neg h]
  cases hf : st.cache.find? (fun c => c.1 == ip) with
  | some c =>
    obtain ⟨c1, c2⟩ := c
    have hc1 : c1 = ip := by
      have hbeq := List.find?_some hf
      exact eq_of_beq hbeq
    subst hc1
    exact hf
  | none =>
    dsimp only
    split
    · exact cache_append_find st.cache ip _ hf
    · split
      · exact cache_append_find st.cache ip _ hf
      · split
        · split
          · exact cache_append_find st.cache ip _ hf
          · exact cache_append_find st.cache ip _ hf
        · exact cache_append_find st.cache ip _ hf

/-- A cache hit returns the cached entry and leaves the state untouched. -/
theorem provider_lookup_cache_hit {δ : Type} (mkOk : δ → Entry) (env : ProviderEnv δ)
    (s : ProviderState) (ip : String) (e : Entry) (h : ip ≠ "")
    (hf : s.cache.find? (fun c => c.1 == ip) = some (ip, e)) :
    provider_lookup mkOk env s ip = (e, s) := by
  unfold provider_lookup
  rw [if_neg h, hf]

/-- Any single lookup issues at most one network call. -/
theorem provider_lookup_calls {δ : Type} (mkOk : δ → Entry) (env : ProviderEnv δ)
    (st : ProviderState) (ip : String) :
    (provider_lookup mkOk env st ip).2.calls ≤ st.calls + 1 := by
  unfold provider_lookup
  split
  · exact Nat.le_succ _
  · split
    · exact Nat.le_succ _
    · split
      · exact Nat.le_succ _
      · split
        · exact Nat.le_refl _
        · split
          · split
            · exact Nat.le_refl _
            · exact Nat.le_refl _
          · exact Nat.le_refl _

/-- The terminal statuses of a first (uncached) lookup of a non-empty IP:
`no_key` without touching the call counter, and `error` / `error` (parse) /
`http_<code>` out of the one network call. -/
theorem provider_lookup_error_modes {δ : Type} (mkOk : δ → Entry) (env : ProviderEnv δ)
    (st : ProviderState) (ip : String) (h : ip ≠ "")
    (hmiss : st.cache.find? (fun c => c.1 == ip) = none) :
    (env.apiKey.getD "" = "" →
      provider_lookup mkOk env st ip =
        ([("status", .str "no_key")],
         { st with cache := st.cache ++ [(ip, [("status", .str "no_key")])] })) ∧
    (env.apiKey.getD "" ≠ "" → ∀ m, env.net st.calls = .exception m →
      (provider_lookup mkOk env st ip).1 =
        [("status", .str "error"), ("error", .str m)]) ∧
    (env.apiKey.getD "" ≠ "" → ∀ m, env.net st.calls = .response 200 (.error m) →
      (provider_lookup mkOk env st ip).1 =
        [("status", .str "error"), ("error", .str m)]) ∧
    (env.apiKey.getD "" ≠ "" → ∀ code body, code ≠ 200 →
      env.net st.calls = .response code body →
      (provider_lookup mkOk env st ip).1 =
        [("status", .str ("http_" ++ toString code))]) := by
  refine ⟨?_, ?_, ?_, ?_⟩
  · intro hkey
    unfold provider_lookup
    rw [if_neg h, hmiss]
    dsimp only
    rw [if_pos hkey]
  · intro hkey m hnet
    unfold provider_lookup
    rw [if_neg h, hmiss]
    dsimp only
    rw [if_neg hkey, hnet]
  · intro hkey m hnet
    unfold provider_lookup
    rw [if_neg h, hmiss]
    dsimp only
    rw [if_neg hkey, hnet]
    dsimp only
    rw [if_pos rfl]
  · intro hkey code body hcode hnet
    unfold provider_lookup
    rw [if_neg h, hmiss]
    dsimp only
    rw [if_neg hkey, hnet]
    dsimp only
    rw [if_neg hcode]

end Soc

namespace Soc

/-! ## C3: per-provider caching -/

/-- C3: for each provider, looking a non-empty IP up twice in a row returns
the identical cached entry the second time, changes nothing in the state on
the second call (so no second network call), and the whole pair of calls
issues at most one network call.  Any first-call outcome (`no_key`, `ok`,
`http_<code>`, `error`) is cached and never recomputed. -/
theorem C3_provider_caching (envA : ProviderEnv AbuseData) (stA : ProviderState)
    (envV : ProviderEnv VTData) (stV : ProviderState) (ip : String) (h : ip ≠ "") :
    (enrich_ip_with_abuseipdb envA (enrich_ip_with_abuseipdb envA stA ip).2 ip =
        ((enrich_ip_with_abuseipdb envA stA ip).1,
         (enrich_ip_with_abuseipdb envA stA ip).2) ∧
      (enrich_ip_with_abuseipdb envA stA ip).2.calls ≤ stA.calls + 1) ∧
    (enrich_ip_with_virustotal envV (enrich_ip_with_virustotal envV stV ip).2 ip =
        ((enrich_ip_with_virustotal envV stV ip).1,
         (enrich_ip_with_virustotal envV stV ip).2) ∧
      (enrich_ip_with_virustotal envV stV ip).2.calls ≤ stV.calls + 1) := by
  refine ⟨⟨?_, provider_lookup_calls _ _ _ _⟩, ⟨?_, provider_lookup_calls _ _ _ _⟩⟩
  · exact provider_lookup_cache_hit _ _ _ _ _ h (provider_lookup_caches _ _ _ _ h)
  · exact provider_lookup_cache_hit _ _ _ _ _ h (provider_lookup_caches _ _ _ _ h)

/-- Witness for C3: a repeated AbuseIPDB lookup of `"1.2.3.4"` in a process
with no key configured returns the identical cached entry without touching
the state. -/
theorem C3_provider_caching_witness :
    enrich_ip_with_abuseipdb ⟨none, fun _ => .exception "t"⟩
        (enrich_ip_with_abuseipdb ⟨none, fun _ => .exception "t"⟩ ⟨[], 0⟩ "1.2.3.4").2
        "1.2.3.4" =
      ((enrich_ip_with_abuseipdb ⟨none, fun _ => .exception "t"⟩ ⟨[], 0⟩ "1.2.3.4").1,
       (enrich_ip_with_abuseipdb ⟨none, fun _ => .exception "t"⟩ ⟨[], 0⟩ "1.2.3.4").2) :=
  (C3_provider_caching ⟨none, fun _ => .exception "t"⟩ ⟨[], 0⟩
    ⟨none, fun _ => .exception "t"⟩ ⟨[], 0⟩ "1.2.3.4" (by decide)).1.1

/-! ## C4: provider error statuses never propagate -/

/-- C4: for each provider and a non-empty, not-yet-cached IP — a missing
credential yields `{"status": "no_key"}` with the call counter untouched (no
network call); a transport exception or a body-parse failure yields a
`status "error"` entry carrying the diagnostic string (the lookup is a total
function, so no exception propagates); a non-200 response yields
`status "http_<code>"`. -/
theorem C4_provider_error_handling (envA : ProviderEnv AbuseData)
    (envV : ProviderEnv VTData) (stA stV : ProviderState) (ip : String)
    (h : ip ≠ "")
    (hmA : stA.cache.find? (fun c => c.1 == ip) = none)
    (hmV : stV.cache.find? (fun c => c.1 == ip) = none) :
    ((envA.apiKey.getD "" = "" →
       enrich_ip_with_abuseipdb envA stA ip =
         ([("status", .str "no_key")],
          { stA with cache := stA.cache ++ [(ip, [("status", .str "no_key")])] })) ∧
     (envA.apiKey.getD "" ≠ "" → ∀ m, envA.net stA.calls = .exception m →
       (enrich_ip_with_abuseipdb envA stA ip).1 =
         [("status", .str "error"), ("error", .str m)]) ∧
     (envA.apiKey.getD "" ≠ "" → ∀ m, envA.net stA.calls = .response 200 (.error m) →
       (enrich_ip_with_abuseipdb envA stA ip).1 =
         [("status", .str "error"), ("error", .str m)]) ∧
     (envA.apiKey.getD "" ≠ "" → ∀ code body, code ≠ 200 →
       envA.net stA.calls = .response code body →
       (enrich_ip_with_abuseipdb envA stA ip).1 =
         [("status", .str ("http_" ++ toString code))])) ∧
    ((envV.apiKey.getD "" = "" →
       enrich_ip_with_virustotal envV stV ip =
         ([("status", .str "no_key")],
          { stV with cache := stV.cache ++ [(ip, [("status", .str "no_key")])] })) ∧
     (envV.apiKey.getD "" ≠ "" → ∀ m, envV.net stV.calls = .exception m →
       (enrich_ip_with_virustotal envV stV ip).1 =
         [("status", .str "error"), ("error", .str m)]) ∧
     (envV.apiKey.getD "" ≠ "" → ∀ m, envV.net stV.calls = .response 200 (.error m) →
       (enrich_ip_with_virustotal envV stV ip).1 =
         [("status", .str "error"), ("error", .str m)]) ∧
     (envV.apiKey.getD "" ≠ "" → ∀ code body, code ≠ 200 →
       envV.net stV.calls = .response code body →
       (enrich_ip_with_virustotal envV stV ip).1 =
         [("status", .str ("http_" ++ toString code))])) :=
  ⟨provider_lookup_error_modes abuse_ok_entry envA stA ip h hmA,
   provider_lookup_error_modes vt_ok_entry envV stV ip h hmV⟩

/-- Witness for C4 at `ip = "8.8.8.8"` and an empty cache: a missing key, a
transport exception, a parse failure and an HTTP 404, each with a concrete
environment. -/
theorem C4_provider_error_handling_witness :
    (enrich_ip_with_abuseipdb ⟨none, fun _ => .exception "t"⟩ ⟨[], 0⟩ "8.8.8.8" =
      ([("status", .str "no_key")],
       { cache := [("8.8.8.8", [("status", .str "no_key")])], calls := 0 })) ∧
    ((enrich_ip_with_abuseipdb ⟨some "k", fun _ => .exception "boom"⟩ ⟨[], 0⟩ "8.8.8.8").1 =
      [("status", .str "error"), ("error", .str "boom")]) ∧
    ((enrich_ip_with_virustotal ⟨some "k", fun _ => .response 200 (.error "bad json")⟩
        ⟨[], 0⟩ "8.8.8.8").1 =
      [("status", .str "error"), ("error", .str "bad json")]) ∧
    ((enrich_ip_with_virustotal ⟨some "k", fun _ => .response 404 (.ok ⟨none, none, none⟩)⟩
        ⟨[], 0⟩ "8.8.8.8").1 =
      [("status", .str ("http_" ++ toString 404))]) :=
  ⟨((C4_provider_error_handling ⟨none, fun _ => .exception "t"⟩
      ⟨none, fun _ => .exception "t"⟩ ⟨[], 0⟩ ⟨[], 0⟩ "8.8.8.8"
      (by decide) rfl rfl).1.1) rfl,
   ((C4_provider_error_handling ⟨some "k", fun _ => .exception "boom"⟩
      ⟨none, fun _ => .exception "t"⟩ ⟨[], 0⟩ ⟨[], 0⟩ "8.8.8.8"
      (by decide) rfl rfl).1.2.1) (by decide) "boom" rfl,
   ((C4_provider_error_handling ⟨none, fun _ => .exception "t"⟩
      ⟨some "k", fun _ => .response 200 (.error "bad json")⟩ ⟨[], 0⟩ ⟨[], 0⟩ "8.8.8.8"
      (by decide) rfl rfl).2.2.2.1) (by decide) "bad json" rfl,
   ((C4_provider_error_handling ⟨none, fun _ => .exception "t"⟩
      ⟨some "k", fun _ => .response 404 (.ok ⟨none, none, none⟩)⟩ ⟨[], 0⟩ ⟨[], 0⟩ "8.8.8.8"
      (by decide) rfl rfl).2.2.2.2) (by decide) 404 (.ok ⟨none, none, none⟩)
      (by decide) rfl⟩

/-! ## Ordering lemmas for the top-K selection -/

theorem riskOrder_total (a b : Nat × ℚ) : riskOrder a b ∨ riskOrder b a := by
  unfold riskOrder
  rcases lt_trichotomy a.2 b.2 with h | h | h
  · exact Or.inr (Or.inl h)
  · rcases Nat.le_total a.1 b.1 with hi | hi
    · exact Or.inl (Or.inr ⟨h, hi⟩)
    · exact Or.inr (Or.inr ⟨h.symm, hi⟩)
  · exact Or.inl (Or.inl h)

theorem riskOrder_trans (a b c : Nat × ℚ) (h1 : riskOrder a b) (h2 : riskOrder b c) :
    riskOrder a c := by
  unfold riskOrder at h1 h2 ⊢
  rcases h1 with h1 | ⟨h1e, h1i⟩ <;> rcases h2 with h2 | ⟨h2e, h2i⟩
  · exact Or.inl (by linarith)
  · exact Or.inl (by linarith [h2e.ge, h2e.le])
  · exact Or.inl (by linarith [h1e.ge, h1e.le])
  · exact Or.inr ⟨h1e.trans h2e, le_trans h1i h2i⟩

end Soc

namespace Soc

/-! ## C7: stable top-K selection by descending risk score -/

/-- C7: the enrichment orchestrator's selection over position-indexed risk
scores picks exactly `min top_k (number of rows)` entries; the picked list is
ordered by descending score with ties in ascending original position
(`riskOrder`), and every entry left out is `riskOrder`-below every picked one
(so the picked entries are exactly the largest, with stable tie-breaking). -/
theorem C7_top_k_stable_selection (scores : List ℚ) (k : Nat) :
    (top_enrich_selection k scores).length = min k scores.length ∧
    List.Pairwise riskOrder (top_enrich_selection k scores) ∧
    ∃ rest : List (Nat × ℚ),
      (top_enrich_selection k scores ++ rest).Perm scores.enum ∧
      ∀ a ∈ top_enrich_selection k scores, ∀ b ∈ rest, riskOrder a b := by
  have hsorted : List.Sorted riskOrder (List.insertionSort riskOrder scores.enum) :=
    @List.sorted_insertionSort _ riskOrder _ ⟨riskOrder_total⟩ ⟨riskOrder_trans⟩ scores.enum
  unfold top_enrich_selection nlargest_idx
  refine ⟨?_, ?_,
    List.drop (min k scores.length) (List.insertionSort riskOrder scores.enum), ?_, ?_⟩
  · rw [List.length_take, List.length_insertionSort, List.enum_length]
    omega
  · exact List.Pairwise.sublist (List.take_sublist _ _) hsorted
  · rw [List.take_append_drop]
    exact List.perm_insertionSort riskOrder scores.enum
  · intro a ha b hb
    exact hsorted.rel_of_mem_take_of_mem_drop ha hb

/-- Witness for C7 on the concrete score list `[2, 3, 1]` with `top_k = 2`. -/
theorem C7_top_k_stable_selection_witness :
    (top_enrich_selection 2 [2, 3, 1]).length = min 2 ([2, 3, 1] : List ℚ).length ∧
    List.Pairwise riskOrder (top_enrich_selection 2 [2, 3, 1]) ∧
    ∃ rest : List (Nat × ℚ),
      (top_enrich_selection 2 [2, 3, 1] ++ rest).Perm ([2, 3, 1] : List ℚ).enum ∧
      ∀ a ∈ top_enrich_selection 2 [2, 3, 1], ∀ b ∈ rest, riskOrder a b :=
  C7_top_k_stable_selection [2, 3, 1] 2

end Soc

namespace Soc

/-! ## C8: malformed IP strings default to zero features -/

/-- C8: `"not-an-ip"` and `""` are malformed; for every malformed IP string
`ip_to_int` and `is_private` return 0 (they are total functions, so no
exception is raised), and in the feature table every row whose
`source_ip` / `destination_ip` value is malformed gets 0 in
`src_ip_int` / `dst_ip_int` and 0 in the corresponding privacy flag. -/
theorem C8_malformed_ip_defaults :
    (ip_address "not-an-ip" = none ∧ ip_address "" = none) ∧
    (∀ s, ip_address s = none → ip_to_int s = 0 ∧ is_private s = 0) ∧
    (∀ df : RawTable, ∀ i : Nat, ∀ s : String,
      (src_ip_series df)[i]? = some s → ip_address s = none →
        (ip_feature_columns df).src_ip_int[i]? = some 0 ∧
        (ip_feature_columns df).src_is_private[i]? = some 0) ∧
    (∀ df : RawTable, ∀ i : Nat, ∀ s : String,
      (dst_ip_series df)[i]? = some s → ip_address s = none →
        (ip_feature_columns df).dst_ip_int[i]? = some 0 ∧
        (ip_feature_columns df).dst_is_private[i]? = some 0) := by
  have hz : ∀ s, ip_address s = none → ip_to_int s = 0 ∧ is_private s = 0 := by
    intro s hs
    unfold ip_to_int is_private
    rw [hs]
    exact ⟨rfl, rfl⟩
  refine ⟨⟨by decide, by decide⟩, hz, ?_, ?_⟩
  · intro df i s hget hs
    unfold ip_feature_columns
    rw [List.getElem?_map, List.getElem?_map, hget]
    exact ⟨congrArg some (hz s hs).1, congrArg some (hz s hs).2⟩
  · intro df i s hget hs
    unfold ip_feature_columns
    rw [List.getElem?_map, List.getElem?_map, hget]
    exact ⟨congrArg some (hz s hs).1, congrArg some (hz s hs).2⟩

/-- Witness for C8: a one-row table whose `source_ip` is `"not-an-ip"` and
whose `destination_ip` is `""` gets all four IP features 0. -/
theorem C8_malformed_ip_defaults_witness :
    (ip_feature_columns [("source_ip", [some "not-an-ip"]), ("destination_ip", [some ""])]).src_ip_int[0]? = some 0 ∧
    (ip_feature_columns [("source_ip", [some "not-an-ip"]), ("destination_ip", [some ""])]).src_is_private[0]? = some 0 ∧
    (ip_feature_columns [("source_ip", [some "not-an-ip"]), ("destination_ip", [some ""])]).dst_ip_int[0]? = some 0 ∧
    (ip_feature_columns [("source_ip", [some "not-an-ip"]), ("destination_ip", [some ""])]).dst_is_private[0]? = some 0 := by
  have h1 := (C8_malformed_ip_defaults).2.2.1
    [("source_ip", [some "not-an-ip"]), ("destination_ip", [some ""])] 0 "not-an-ip"
    (by decide) (by decide)
  have h2 := (C8_malformed_ip_defaults).2.2.2
    [("source_ip", [some "not-an-ip"]), ("destination_ip", [some ""])] 0 ""
    (by decide) (by decide)
  exact ⟨h1.1, h1.2, h2.1, h2.2⟩

/-! ## Facts about the alias table -/

/-- Two alias entries with the same key are the same entry (the Python dict
has unique keys). -/
theorem aliases_key_inj : ∀ p ∈ ALIASES, ∀ q ∈ ALIASES, p.1 = q.1 → p = q := by decide

/-- No alias key is also a canonical target. -/
theorem aliases_key_ne_target : ∀ p ∈ ALIASES, ∀ q ∈ ALIASES, p.1 ≠ q.2 := by decide

theorem aliases_nodup : ALIASES.Nodup := by decide

/-! ## Lemmas about `renameCol` -/

theorem beq_false_of_ne {a b : String} (h : a ≠ b) : ¬((a == b) = true) := by
  rw [beq_eq_false_iff_ne.mpr h]
  exact Bool.false_ne_true

theorem hasCol_renameCol_other (al tgt n : String) (t : RawTable)
    (h1 : n ≠ al) (h2 : n ≠ tgt) : hasCol (renameCol al tgt t) n = hasCol t n := by
  unfold renameCol
  induction t with
  | nil => rfl
  | cons c t ih =>
    rw [List.map_cons, hasCol_cons, hasCol_cons, ih]
    congr 1
    by_cases hc : (c.1 == al) = true
    · rw [if_pos hc]
      dsimp only
      rw [beq_eq_false_iff_ne.mpr (Ne.symm h2),
        beq_eq_false_iff_ne.mpr (fun e => h1 ((eq_of_beq hc) ▸ e).symm)]
    · rw [if_neg hc]

theorem getCol_renameCol_other (al tgt n : String) (t : RawTable)
    (h1 : n ≠ al) (h2 : n ≠ tgt) : getCol (renameCol al tgt t) n = getCol t n := by
  unfold renameCol
  induction t with
  | nil => rfl
  | cons c t ih =>
    rw [List.map_cons, getCol_cons, getCol_cons, ih]
    by_cases hc : (c.1 == al) = true
    · rw [if_pos hc]
      dsimp only
      rw [if_neg (beq_false_of_ne (Ne.symm h2)),
        if_neg (beq_false_of_ne (fun e => h1 ((eq_of_beq hc) ▸ e).symm))]
    · rw [if_neg hc]

theorem hasCol_renameCol_self (al tgt : String) (t : RawTable) (hne : al ≠ tgt) :
    hasCol (renameCol al tgt t) al = false := by
  unfold renameCol
  induction t with
  | nil => rfl
  | cons c t ih =>
    rw [List.map_cons, hasCol_cons, ih, Bool.or_false]
    by_cases hc : (c.1 == al) = true
    · rw [if_pos hc]
      dsimp only
      exact beq_eq_false_iff_ne.mpr (Ne.symm hne)
    · rw [if_neg hc]
      exact Bool.eq_false_iff.mpr hc

theorem renameCol_hits (al tgt : String) (t : RawTable)
    (htgt : hasCol t tgt = false) :
    hasCol (renameCol al tgt t) tgt = hasCol t al ∧
    (hasCol t al = true → getCol (renameCol al tgt t) tgt = getCol t al) := by
  unfold renameCol
  induction t with
  | nil =>
    refine ⟨rfl, fun h => absurd h ?_⟩
    rw [hasCol]
    exact Bool.false_ne_true
  | cons c t ih =>
    rw [hasCol_cons, Bool.or_eq_false_iff] at htgt
    obtain ⟨htc, htt⟩ := htgt
    obtain ⟨ih1, ih2⟩ := ih htt
    constructor
    · rw [List.map_cons, hasCol_cons, hasCol_cons, ih1]
      congr 1
      by_cases hc : (c.1 == al) = true
      · rw [if_pos hc]
        dsimp only
        rw [hc, BEq.refl]
      · rw [if_neg hc]
        rw [htc, Bool.eq_false_iff.mpr hc]
    · intro hal
      rw [hasCol_cons] at hal
      rw [List.map_cons, getCol_cons, getCol_cons]
      by_cases hc : (c.1 == al) = true
      · rw [if_pos hc]
        dsimp only
        rw [if_pos BEq.refl, if_pos hc]
      · have hal' : hasCol t al = true := by
          rcases Bool.or_eq_true_iff.mp hal with h | h
          · exact absurd h hc
          · exact h
        rw [if_neg hc, if_neg (by rw [htc]; exact Bool.false_ne_true), if_neg hc]
        exact ih2 hal'

/-! ## Invariants of the alias-application loop -/

theorem step_cond_elim {t : RawTable} {p : String × String}
    (hcond : (hasCol t p.1 && !(hasCol t p.2)) = true) :
    hasCol t p.1 = true ∧ hasCol t p.2 = false := by
  have h := (Bool.and_eq_true _ _).mp hcond
  refine ⟨h.1, ?_⟩
  have h2 := h.2
  rwa [Bool.not_eq_true'] at h2

/-- The `(al, tgt)` step itself fires when `al` is a column and `tgt` is
not. -/
theorem step_fires (al tgt : String) (t : RawTable) (h1 : hasCol t al = true)
    (h2 : hasCol t tgt = false) :
    applyAliasStep t (al, tgt) = renameCol al tgt t := by
  unfold applyAliasStep
  dsimp only
  rw [h1, h2]
  rfl

/-- Any alias step keeps a table in which both `al` and its target `tgt` are
present untouched on those two columns. -/
theorem step_preserves_both (al tgt : String) (hmem : (al, tgt) ∈ ALIASES)
    (p : String × String) (hp : p ∈ ALIASES) (t : RawTable)
    (h1 : hasCol t tgt = true) (h3 : hasCol t al = true) :
    hasCol (applyAliasStep t p) tgt = true ∧
    getCol (applyAliasStep t p) tgt = getCol t tgt ∧
    hasCol (applyAliasStep t p) al = true ∧
    getCol (applyAliasStep t p) al = getCol t al := by
  unfold applyAliasStep
  by_cases hcond : (hasCol t p.1 && !(hasCol t p.2)) = true
  · rw [if_pos hcond]
    obtain ⟨c1, c2⟩ := step_cond_elim hcond
    have htp1 : tgt ≠ p.1 := Ne.symm (aliases_key_ne_target p hp (al, tgt) hmem)
    have htp2 : tgt ≠ p.2 := by
      intro e
      rw [← e, h1] at c2
      exact Bool.false_ne_true c2.symm
    have hap1 : al ≠ p.1 := by
      intro e
      have hpe : p = (al, tgt) := aliases_key_inj p hp (al, tgt) hmem e.symm
      have hp2 : p.2 = tgt := congrArg Prod.snd hpe
      rw [hp2, h1] at c2
      exact Bool.false_ne_true c2.symm
    have hap2 : al ≠ p.2 := aliases_key_ne_target (al, tgt) hmem p hp
    rw [hasCol_renameCol_other _ _ _ _ htp1 htp2, getCol_renameCol_other _ _ _ _ htp1 htp2,
      hasCol_renameCol_other _ _ _ _ hap1 hap2, getCol_renameCol_other _ _ _ _ hap1 hap2]
    exact ⟨h1, rfl, h3, rfl⟩
  · rw [if_neg hcond]
    exact ⟨h1, rfl, h3, rfl⟩

/-- Before the `(al, tgt)` entry is reached (keys distinct from `al`), a step
keeps `al` present with its values, keeps `tgt` absent, and keeps every other
alias of `tgt` absent. -/
theorem step_preserves_pre (al tgt : String) (hmem : (al, tgt) ∈ ALIASES)
    (p : String × String) (hp : p ∈ ALIASES) (hpk : p.1 ≠ al) (t : RawTable)
    (h1 : hasCol t al = true) (h2 : hasCol t tgt = false)
    (h3 : ∀ q ∈ ALIASES, q.2 = tgt → q.1 ≠ al → hasCol t q.1 = false) :
    hasCol (applyAliasStep t p) al = true ∧
    getCol (applyAliasStep t p) al = getCol t al ∧
    hasCol (applyAliasStep t p) tgt = false ∧
    (∀ q ∈ ALIASES, q.2 = tgt → q.1 ≠ al → hasCol (applyAliasStep t p) q.1 = false) := by
  unfold applyAliasStep
  by_cases hcond : (hasCol t p.1 && !(hasCol t p.2)) = true
  · rw [if_pos hcond]
    obtain ⟨c1, c2⟩ := step_cond_elim hcond
    have hp2t : p.2 ≠ tgt := by
      intro e
      have := h3 p hp e hpk
      rw [this] at c1
      exact Bool.false_ne_true c1
    have hap1 : al ≠ p.1 := Ne.symm hpk
    have hap2 : al ≠ p.2 := aliases_key_ne_target (al, tgt) hmem p hp
    have htp1 : tgt ≠ p.1 := Ne.symm (aliases_key_ne_target p hp (al, tgt) hmem)
    have htp2 : tgt ≠ p.2 := Ne.symm hp2t
    refine ⟨?_, ?_, ?_, ?_⟩
    · rw [hasCol_renameCol_other _ _ _ _ hap1 hap2]; exact h1
    · exact getCol_renameCol_other _ _ _ _ hap1 hap2
    · rw [hasCol_renameCol_other _ _ _ _ htp1 htp2]; exact h2
    · intro q hq hq2 hq1
      have hqp1 : q.1 ≠ p.1 := by
        intro e
        have hqe : q = p := aliases_key_inj q hq p hp e
        rw [hqe] at hq2
        exact hp2t hq2
      have hqp2 : q.1 ≠ p.2 := aliases_key_ne_target q hq p hp
      rw [hasCol_renameCol_other _ _ _ _ hqp1 hqp2]
      exact h3 q hq hq2 hq1
  · rw [if_neg hcond]
    exact ⟨h1, rfl, h2, h3⟩

/-- After the rename happened (`tgt` present, `al` gone), any further step
keeps `tgt` present with its values and keeps `al` absent. -/
theorem step_preserves_post (al tgt : String) (hmem : (al, tgt) ∈ ALIASES)
    (p : String × String) (hp : p ∈ ALIASES) (t : RawTable)
    (h1 : hasCol t tgt = true) (h2 : hasCol t al = false) :
    hasCol (applyAliasStep t p) tgt = true ∧
    getCol (applyAliasStep t p) tgt = getCol t tgt ∧
    hasCol (applyAliasStep t p) al = false := by
  unfold applyAliasStep
  by_cases hcond : (hasCol t p.1 && !(hasCol t p.2)) = true
  · rw [if_pos hcond]
    obtain ⟨c1, c2⟩ := step_cond_elim hcond
    have htp1 : tgt ≠ p.1 := Ne.symm (aliases_key_ne_target p hp (al, tgt) hmem)
    have htp2 : tgt ≠ p.2 := by
      intro e
      rw [← e, h1] at c2
      exact Bool.false_ne_true c2.symm
    have hap1 : al ≠ p.1 := by
      intro e
      rw [← e, h2] at c1
      exact Bool.false_ne_true c1
    have hap2 : al ≠ p.2 := aliases_key_ne_target (al, tgt) hmem p hp
    rw [hasCol_renameCol_other _ _ _ _ htp1 htp2, getCol_renameCol_other _ _ _ _ htp1 htp2,
      hasCol_renameCol_other _ _ _ _ hap1 hap2]
    exact ⟨h1, rfl, h2⟩
  · rw [if_neg hcond]
    exact ⟨h1, rfl, h2⟩

/-- When an alias and its canonical target are both present, the whole alias
loop touches neither column. -/
theorem canonicalize_both_kept (df : RawTable) (al tgt : String)
    (hmem : (al, tgt) ∈ ALIASES) (hne : dfEmpty df = false)
    (hal : hasCol (normTable df) al = true)
    (htgt : hasCol (normTable df) tgt = true) :
    hasCol (canonicalize_columns df) al = true ∧
    getCol (canonicalize_columns df) al = getCol (normTable df) al ∧
    hasCol (canonicalize_columns df) tgt = true ∧
    getCol (canonicalize_columns df) tgt = getCol (normTable df) tgt := by
  unfold canonicalize_columns
  rw [if_neg (by rw [hne]; exact Bool.false_ne_true)]
  have h := foldl_invariant
    (fun t => hasCol t tgt = true ∧ getCol t tgt = getCol (normTable df) tgt ∧
      hasCol t al = true ∧ getCol t al = getCol (normTable df) al)
    applyAliasStep ALIASES
    (fun t p hp hP => by
      obtain ⟨a1, a2, a3, a4⟩ := hP
      obtain ⟨b1, b2, b3, b4⟩ := step_preserves_both al tgt hmem p hp t a1 a3
      exact ⟨b1, b2.trans a2, b3, b4.trans a4⟩)
    (normTable df) ⟨htgt, rfl, hal, rfl⟩
  exact ⟨h.2.2.1, h.2.2.2, h.1, h.2.1⟩

/-- When only the alias is present (and no other alias of the same target),
the alias loop renames it: the canonical name appears carrying the alias's
values, and the alias name disappears. -/
theorem canonicalize_alias_renamed (df : RawTable) (al tgt : String)
    (hmem : (al, tgt) ∈ ALIASES) (hne : dfEmpty df = false)
    (hal : hasCol (normTable df) al = true)
    (htgt : hasCol (normTable df) tgt = false)
    (hoth : ∀ q ∈ ALIASES, q.2 = tgt → q.1 ≠ al → hasCol (normTable df) q.1 = false) :
    hasCol (canonicalize_columns df) tgt = true ∧
    hasCol (canonicalize_columns df) al = false ∧
    getCol (canonicalize_columns df) tgt = getCol (normTable df) al := by
  obtain ⟨l1, l2, hsplit⟩ := List.append_of_mem hmem
  have hnotl1 : (al, tgt) ∉ l1 := by
    have hnd := aliases_nodup
    rw [hsplit, List.nodup_append] at hnd
    exact fun hmem1 => hnd.2.2 hmem1 (List.mem_cons_self _ _)
  have hmeml1 : ∀ p ∈ l1, p ∈ ALIASES := by
    intro p hp
    rw [hsplit]
    exact List.mem_append_left _ hp
  have hmeml2 : ∀ p ∈ l2, p ∈ ALIASES := by
    intro p hp
    rw [hsplit]
    exact List.mem_append_right _ (List.mem_cons_of_mem _ hp)
  unfold canonicalize_columns
  rw [if_neg (by rw [hne]; exact Bool.false_ne_true), hsplit, List.foldl_append,
    List.foldl_cons]
  -- phase 1: fold over the aliases before (al, tgt)
  have hP1 := foldl_invariant
    (fun t => hasCol t al = true ∧ getCol t al = getCol (normTable df) al ∧
      hasCol t tgt = false ∧
      (∀ q ∈ ALIASES, q.2 = tgt → q.1 ≠ al → hasCol t q.1 = false))
    applyAliasStep l1
    (fun t p hp hP => by
      obtain ⟨a1, a2, a3, a4⟩ := hP
      have hpk : p.1 ≠ al := by
        intro e
        exact hnotl1 ((aliases_key_inj p (hmeml1 p hp) (al, tgt) hmem e) ▸ hp)
      obtain ⟨b1, b2, b3, b4⟩ := step_preserves_pre al tgt hmem p (hmeml1 p hp) hpk t a1 a3 a4
      exact ⟨b1, b2.trans a2, b3, b4⟩)
    (normTable df) ⟨hal, rfl, htgt, hoth⟩
  -- the (al, tgt) step itself fires
  obtain ⟨a1, a2, a3, _⟩ := hP1
  have hmidstep : applyAliasStep (l1.foldl applyAliasStep (normTable df)) (al, tgt) =
      renameCol al tgt (l1.foldl applyAliasStep (normTable df)) :=
    step_fires al tgt _ a1 a3
  obtain ⟨hh1, hh2⟩ := renameCol_hits al tgt (l1.foldl applyAliasStep (normTable df)) a3
  have haltgt : al ≠ tgt := aliases_key_ne_target (al, tgt) hmem (al, tgt) hmem
  -- phase 2: fold over the aliases after (al, tgt)
  have hP2 := foldl_invariant
    (fun t => hasCol t tgt = true ∧ getCol t tgt = getCol (normTable df) al ∧
      hasCol t al = false)
    applyAliasStep l2
    (fun t p hp hP => by
      obtain ⟨a1', a2', a3'⟩ := hP
      obtain ⟨b1, b2, b3⟩ := step_preserves_post al tgt hmem p (hmeml2 p hp) t a1' a3'
      exact ⟨b1, b2.trans a2', b3⟩)
    (applyAliasStep (l1.foldl applyAliasStep (normTable df)) (al, tgt))
    (by
      rw [hmidstep]
      refine ⟨?_, ?_, ?_⟩
      · rw [hh1]; exact a1
      · rw [hh2 a1]; exact a2
      · exact hasCol_renameCol_self al tgt _ haltgt)
  exact ⟨hP2.1, hP2.2.2, hP2.2.1⟩

end Soc

namespace Soc

/-! ## C1: canonicalisation with alias and canonical target both present -/

/-- C1 as stated is false on the code: when both the alias and its canonical
target are present, `canonicalize_columns` keeps the alias column (the rename
is guarded by `target not in columns`, and nothing drops the alias); and when
two aliases of the same target are present, only the first is renamed and the
second alias column survives. -/
theorem C1_canonicalize_counterexample :
    canonicalize_columns [("src", [some "1.2.3.4"]), ("source_ip", [some "5.6.7.8"])] =
      [("src", [some "1.2.3.4"]), ("source_ip", [some "5.6.7.8"])] ∧
    hasCol (canonicalize_columns
      [("src", [some "1.2.3.4"]), ("source_ip", [some "5.6.7.8"])]) "src" = true ∧
    canonicalize_columns [("src", [some "1.1.1.1"]), ("src_ip", [some "2.2.2.2"])] =
      [("source_ip", [some "1.1.1.1"]), ("src_ip", [some "2.2.2.2"])] := by
  exact ⟨by decide, by decide, by decide⟩

/-- C1 (amended): for a non-empty table, when an alias and its canonical
target are both present after name normalisation, the canonical column's
values are preserved unchanged and the alias column is kept (not dropped);
when only the alias is present (no canonical column, no other alias of the
same target), the output has the canonical name present carrying the alias's
values and the alias name absent. -/
theorem C1_canonicalize_amended (df : RawTable) (al tgt : String)
    (hmem : (al, tgt) ∈ ALIASES) (hne : dfEmpty df = false) :
    (hasCol (normTable df) al = true → hasCol (normTable df) tgt = true →
      hasCol (canonicalize_columns df) al = true ∧
      getCol (canonicalize_columns df) al = getCol (normTable df) al ∧
      hasCol (canonicalize_columns df) tgt = true ∧
      getCol (canonicalize_columns df) tgt = getCol (normTable df) tgt) ∧
    (hasCol (normTable df) al = true → hasCol (normTable df) tgt = false →
      (∀ q ∈ ALIASES, q.2 = tgt → q.1 ≠ al → hasCol (normTable df) q.1 = false) →
      hasCol (canonicalize_columns df) tgt = true ∧
      hasCol (canonicalize_columns df) al = false ∧
      getCol (canonicalize_columns df) tgt = getCol (normTable df) al) :=
  ⟨fun h1 h2 => canonicalize_both_kept df al tgt hmem hne h1 h2,
   fun h1 h2 h3 => canonicalize_alias_renamed df al tgt hmem hne h1 h2 h3⟩

/-- Witness for C1 (amended): both-present on
`[("src", …), ("source_ip", …)]` and alias-only on `[("src", …)]`. -/
theorem C1_canonicalize_amended_witness :
    (hasCol (canonicalize_columns
        [("src", [some "1.2.3.4"]), ("source_ip", [some "5.6.7.8"])]) "src" = true ∧
      getCol (canonicalize_columns
          [("src", [some "1.2.3.4"]), ("source_ip", [some "5.6.7.8"])]) "src" =
        getCol (normTable [("src", [some "1.2.3.4"]), ("source_ip", [some "5.6.7.8"])]) "src" ∧
      hasCol (canonicalize_columns
        [("src", [some "1.2.3.4"]), ("source_ip", [some "5.6.7.8"])]) "source_ip" = true ∧
      getCol (canonicalize_columns
          [("src", [some "1.2.3.4"]), ("source_ip", [some "5.6.7.8"])]) "source_ip" =
        getCol (normTable [("src", [some "1.2.3.4"]), ("source_ip", [some "5.6.7.8"])]) "source_ip") ∧
    (hasCol (canonicalize_columns [("src", [some "9.9.9.9"])]) "source_ip" = true ∧
      hasCol (canonicalize_columns [("src", [some "9.9.9.9"])]) "src" = false ∧
      getCol (canonicalize_columns [("src", [some "9.9.9.9"])]) "source_ip" =
        getCol (normTable [("src", [some "9.9.9.9"])]) "src") :=
  ⟨(C1_canonicalize_amended [("src", [some "1.2.3.4"]), ("source_ip", [some "5.6.7.8"])]
      "src" "source_ip" (by decide) (by decide)).1 (by decide) (by decide),
   (C1_canonicalize_amended [("src", [some "9.9.9.9"])]
      "src" "source_ip" (by decide) (by decide)).2 (by decide) (by decide) (by decide)⟩

end Soc

